import Mathlib

/-!
Verification development for the authentication/session subsystem of the
rr7-honobun repository.

The definitions below are a shallow embedding of the TypeScript source:

* `JwtService.*` embeds app/server/services/jwt.service.ts.  A JWT is
  modelled as an inductive `Token`: either a well-formed signed assertion
  (payload, signing secret, audience, issuer, expiry in milliseconds) or a
  malformed string.  `jwt.verify` succeeds exactly when the secret,
  audience and issuer match the service configuration and the expiry has
  not passed; the try/catch in the source that converts every verification
  failure into `null` is modelled by the `Option` result.
* `Db` and `AuthService.*` embed app/server/services/auth.service.ts
  together with the drizzle queries it issues.  The database is a list of
  user rows and refresh-token rows; each drizzle call becomes an explicit
  pure function on `Db`.  Fresh `nanoid` values (`jti`) and the current
  time are passed in as arguments.  Operations return their result
  together with the database state they leave behind; thrown errors become
  `Except.error` carrying the thrown message string.
* `refreshRoute` embeds the /api/auth/refresh handler of
  app/server/api-routes (authApi section), restricted to the status code
  and JSON error body it produces.
* `ClientView`, `shouldRefreshToken`, `clientTick`, `clientComplete` and
  `runClient` embed the client refresh scheduling of
  app/providers/authProviders.tsx (the `shouldRefreshToken` callback and
  the consolidated token refresh effect).
* `loadState` embeds the sessionStorage restore logic of the Redux store
  module (src/unnamed/part_010, first document).
* `AuthState`, `clearCredentials` and `syncServerAuth` embed the reducers
  of app/store/authSlice.ts.
-/

/-! ## Token codec (app/server/services/jwt.service.ts) -/

/-- Device fingerprint recorded alongside a token grant. -/
structure Fingerprint where
  userAgent : String
  ipAddress : String
  family : String
deriving DecidableEq, Repr

/-- JWT payload shape used by both access and refresh tokens. -/
structure JwtPayload where
  sub : String
  email : String
  role : String
  jti : String
  fingerprint : Option Fingerprint
deriving DecidableEq, Repr

/-- A JWT: either a well-formed token signed with some secret for some
audience/issuer and expiring at `exp` (milliseconds since epoch), or a
malformed string that no verification accepts. -/
inductive Token where
  | signed (payload : JwtPayload) (secret : String) (aud : String)
      (iss : String) (exp : Nat)
  | malformed (raw : String)
deriving DecidableEq, Repr

/-- `ACCESS_TOKEN_SECRET` environment fallback. -/
def accessTokenSecret : String := "access-token-secret"

/-- `REFRESH_TOKEN_SECRET` environment fallback. -/
def refreshTokenSecret : String := "refresh-token-secret"

/-- `JWT_AUDIENCE` environment fallback. -/
def jwtAudience : String := "app-users"

/-- `JWT_ISSUER` environment fallback. -/
def jwtIssuer : String := "auth-service"

/-- `ACCESS_TOKEN_EXPIRY = "15m"`, in milliseconds. -/
def accessTokenExpiryMs : Nat := 15 * 60 * 1000

/-- `REFRESH_TOKEN_EXPIRY = "30d"`, in milliseconds. -/
def refreshTokenExpiryMs : Nat := 30 * 24 * 60 * 60 * 1000

/-- Model of `jwt.verify(token, secret, { audience, issuer })`: succeeds with
the decoded payload exactly when the token is well formed, was signed with
`secret` for the expected audience and issuer, and has not expired; the
source catches every failure and returns `null`, modelled by `none`. -/
def jwtVerify (t : Token) (secret aud iss : String) (now : Nat) :
    Option JwtPayload :=
  match t with
  | .malformed _ => none
  | .signed p s a i exp =>
      if s = secret ∧ a = aud ∧ i = iss ∧ now < exp then some p else none

/-- Row of the `users` table (fields consumed by the auth subsystem). -/
structure User where
  id : String
  email : String
  passwordHash : String
  role : String
  isVerified : Bool
deriving DecidableEq, Repr

/-- `JwtService.generateAccessToken`: signs `{sub, email, role, jti,
fingerprint?}` with the access secret and a 15 minute expiry and returns the
token together with its expiry timestamp (`expiresIn` in the source).  The
fresh `nanoid` is passed in as `jti`. -/
def JwtService.generateAccessToken (user : User) (fingerprint : Option Fingerprint)
    (jti : String) (now : Nat) : Token × Nat :=
  let payload : JwtPayload :=
    { sub := user.id, email := user.email, role := user.role, jti := jti
      fingerprint := fingerprint }
  let exp := now + accessTokenExpiryMs
  (Token.signed payload accessTokenSecret jwtAudience jwtIssuer exp, exp)

/-- `JwtService.generateRefreshToken`: same payload shape without a
fingerprint, signed with the refresh secret and a 30 day expiry. -/
def JwtService.generateRefreshToken (user : User) (jti : String) (now : Nat) :
    Token × Nat :=
  let payload : JwtPayload :=
    { sub := user.id, email := user.email, role := user.role, jti := jti
      fingerprint := none }
  let exp := now + refreshTokenExpiryMs
  (Token.signed payload refreshTokenSecret jwtAudience jwtIssuer exp, exp)

/-- `JwtService.verifyAccessToken`: `jwt.verify` against the access secret,
audience and issuer; `null` on any failure. -/
def JwtService.verifyAccessToken (t : Token) (now : Nat) : Option JwtPayload :=
  jwtVerify t accessTokenSecret jwtAudience jwtIssuer now

/-- `JwtService.verifyRefreshToken`: `jwt.verify` against the refresh secret,
audience and issuer; `null` on any failure. -/
def JwtService.verifyRefreshToken (t : Token) (now : Nat) : Option JwtPayload :=
  jwtVerify t refreshTokenSecret jwtAudience jwtIssuer now

/-! ## Credential store (drizzle queries issued by auth.service.ts) -/

/-- Row of the `refreshTokens` table. -/
structure RefreshTokenRecord where
  id : Nat
  userId : String
  token : Token
  expiresAt : Nat
  isRevoked : Bool
  userAgent : Option String
  ipAddress : Option String
  family : Option String
deriving DecidableEq, Repr

/-- The database state visible to the auth subsystem. -/
structure Db where
  users : List User
  refreshTokens : List RefreshTokenRecord
  nextTokenId : Nat
deriving DecidableEq, Repr

/-- `db.query.users.findFirst({ where: eq(users.email, email) })`. -/
def Db.findUserByEmail (db : Db) (email : String) : Option User :=
  db.users.find? fun u => decide (u.email = email)

/-- `db.query.users.findFirst({ where: eq(users.id, id) })`. -/
def Db.findUserById (db : Db) (id : String) : Option User :=
  db.users.find? fun u => decide (u.id = id)

/-- `db.query.refreshTokens.findFirst` with
`and(eq(token), eq(isRevoked,false), gt(expiresAt, now))`: the lookup for an
active (non-revoked, non-expired) record matching the token value. -/
def Db.findActiveRefreshToken (db : Db) (t : Token) (now : Nat) :
    Option RefreshTokenRecord :=
  db.refreshTokens.find? fun r =>
    decide (r.token = t ∧ r.isRevoked = false ∧ now < r.expiresAt)

/-- `db.insert(refreshTokens).values({...})`: append a fresh non-revoked row. -/
def Db.insertRefreshToken (db : Db) (userId : String) (token : Token)
    (expiresAt : Nat) (userAgent ipAddress family : Option String) : Db :=
  { db with
    refreshTokens := db.refreshTokens ++
      [{ id := db.nextTokenId, userId := userId, token := token
         expiresAt := expiresAt, isRevoked := false, userAgent := userAgent
         ipAddress := ipAddress, family := family }]
    nextTokenId := db.nextTokenId + 1 }

/-- `db.update(refreshTokens).set({isRevoked:true}).where(eq(id, id))`. -/
def Db.revokeById (db : Db) (id : Nat) : Db :=
  { db with
    refreshTokens := db.refreshTokens.map fun r =>
      if r.id = id then { r with isRevoked := true } else r }

/-- `db.update(refreshTokens).set({isRevoked:true}).where(eq(token, t))`. -/
def Db.revokeByToken (db : Db) (t : Token) : Db :=
  { db with
    refreshTokens := db.refreshTokens.map fun r =>
      if r.token = t then { r with isRevoked := true } else r }

/-- `db.update(refreshTokens).set({isRevoked:true}).where(eq(userId, uid))`. -/
def Db.revokeByUser (db : Db) (uid : String) : Db :=
  { db with
    refreshTokens := db.refreshTokens.map fun r =>
      if r.userId = uid then { r with isRevoked := true } else r }

/-! ## Session service (app/server/services/auth.service.ts) -/

/-- Request metadata captured at login (`userAgent`, `ipAddress`, `family`);
all optional in the source. -/
structure Metadata where
  userAgent : Option String
  ipAddress : Option String
  family : Option String
deriving DecidableEq, Repr

/-- Result shape of `AuthService.login` and `AuthService.refreshToken`. -/
structure LoginResult where
  user : User
  accessToken : Token
  refreshToken : Token
  accessTokenExpiresIn : Nat
  refreshTokenExpiresIn : Nat
deriving DecidableEq, Repr

/-- `AuthService.login`: look up the user by email (absent → throw
"Invalid credentials"), verify the password with `Bun.password.verify`
(modelled by the `verifyPassword` argument; wrong → the same
"Invalid credentials"), mint both tokens and persist the refresh-token
record bound to the metadata.  `jtiA`/`jtiR` are the fresh nanoids for the
two tokens. -/
def AuthService.login (db : Db) (email password : String) (meta : Metadata)
    (verifyPassword : String → String → Bool) (jtiA jtiR : String)
    (now : Nat) : Except String (LoginResult × Db) :=
  match db.findUserByEmail email with
  | none => .error "Invalid credentials"
  | some user =>
    if verifyPassword password user.passwordHash = false then
      .error "Invalid credentials"
    else
      let fingerprint : Fingerprint :=
        { userAgent := meta.userAgent.getD ""
          ipAddress := meta.ipAddress.getD ""
          family := meta.family.getD "" }
      let access := JwtService.generateAccessToken user (some fingerprint) jtiA now
      let refresh := JwtService.generateRefreshToken user jtiR now
      let db2 := db.insertRefreshToken user.id refresh.1 refresh.2
        meta.userAgent meta.ipAddress meta.family
      .ok ({ user := user, accessToken := access.1, refreshToken := refresh.1
             accessTokenExpiresIn := access.2
             refreshTokenExpiresIn := refresh.2 }, db2)

/-- `AuthService.createTokensForUser`: the minting path of `login` without
password verification (used after out-of-band identity proof, e.g. OAuth). -/
def AuthService.createTokensForUser (db : Db) (user : User) (meta : Metadata)
    (jtiA jtiR : String) (now : Nat) : LoginResult × Db :=
  let fingerprint : Fingerprint :=
    { userAgent := meta.userAgent.getD ""
      ipAddress := meta.ipAddress.getD ""
      family := meta.family.getD "" }
  let access := JwtService.generateAccessToken user (some fingerprint) jtiA now
  let refresh := JwtService.generateRefreshToken user jtiR now
  let db2 := db.insertRefreshToken user.id refresh.1 refresh.2
    meta.userAgent meta.ipAddress meta.family
  ({ user := user, accessToken := access.1, refreshToken := refresh.1
     accessTokenExpiresIn := access.2
     refreshTokenExpiresIn := refresh.2 }, db2)

/-- `AuthService.refreshToken`: verify the refresh token signature (failure →
throw "Invalid refresh token"), look up an active matching record (absence →
the same "Invalid refresh token"), re-fetch the user, mark the old record
revoked (rotation), mint a fresh pair inheriting the stored metadata and
persist the new record.  The pair result carries the database state left
behind; every error path leaves the database unchanged. -/
def AuthService.refreshToken (db : Db) (token : Token) (jtiA jtiR : String)
    (now : Nat) : Except String LoginResult × Db :=
  match JwtService.verifyRefreshToken token now with
  | none => (.error "Invalid refresh token", db)
  | some payload =>
    match db.findActiveRefreshToken token now with
    | none => (.error "Invalid refresh token", db)
    | some storedToken =>
      match db.findUserById payload.sub with
      | none => (.error "User not found", db)
      | some user =>
        let fingerprint : Fingerprint :=
          { userAgent := storedToken.userAgent.getD ""
            ipAddress := storedToken.ipAddress.getD ""
            family := storedToken.family.getD "" }
        let db1 := db.revokeById storedToken.id
        let access := JwtService.generateAccessToken user (some fingerprint) jtiA now
        let refresh := JwtService.generateRefreshToken user jtiR now
        let db2 := db1.insertRefreshToken user.id refresh.1 refresh.2
          storedToken.userAgent storedToken.ipAddress storedToken.family
        (.ok { user := user, accessToken := access.1, refreshToken := refresh.1
               accessTokenExpiresIn := access.2
               refreshTokenExpiresIn := refresh.2 }, db2)

/-- `AuthService.refreshToken` run against a store whose final
`db.insert(refreshTokens)` may fail: `insertFailure = some msg` models the
store throwing `msg` at the insert step.  The source has no try/catch around
the rotation, so the revocation applied just before the insert is kept and
the store error propagates to the caller.  With `insertFailure = none` this
coincides with `AuthService.refreshToken`
(lemma `refreshTokenStore_none`). -/
def AuthService.refreshTokenStore (db : Db) (token : Token) (jtiA jtiR : String)
    (now : Nat) (insertFailure : Option String) :
    Except String LoginResult × Db :=
  match JwtService.verifyRefreshToken token now with
  | none => (.error "Invalid refresh token", db)
  | some payload =>
    match db.findActiveRefreshToken token now with
    | none => (.error "Invalid refresh token", db)
    | some storedToken =>
      match db.findUserById payload.sub with
      | none => (.error "User not found", db)
      | some user =>
        let fingerprint : Fingerprint :=
          { userAgent := storedToken.userAgent.getD ""
            ipAddress := storedToken.ipAddress.getD ""
            family := storedToken.family.getD "" }
        let db1 := db.revokeById storedToken.id
        let access := JwtService.generateAccessToken user (some fingerprint) jtiA now
        let refresh := JwtService.generateRefreshToken user jtiR now
        match insertFailure with
        | some msg => (.error msg, db1)
        | none =>
          let db2 := db1.insertRefreshToken user.id refresh.1 refresh.2
            storedToken.userAgent storedToken.ipAddress storedToken.family
          (.ok { user := user, accessToken := access.1, refreshToken := refresh.1
                 accessTokenExpiresIn := access.2
                 refreshTokenExpiresIn := refresh.2 }, db2)

/-- `AuthService.validateAccessToken`: verify the JWT (any failure → `null`),
then re-fetch the user row by the payload subject (`null` if deleted); never
consults the refresh-token table. -/
def AuthService.validateAccessToken (db : Db) (token : Token) (now : Nat) :
    Option User :=
  match JwtService.verifyAccessToken token now with
  | none => none
  | some payload =>
    match db.findUserById payload.sub with
    | none => none
    | some user => some user

/-- `AuthService.revokeRefreshToken`: set `isRevoked := true` on every record
matching the token value.  The source returns `!!result`, i.e. the truthiness
of the drizzle result object, which is `true` whether or not any row
matched. -/
def AuthService.revokeRefreshToken (db : Db) (token : Token) : Bool × Db :=
  (true, db.revokeByToken token)

/-- `AuthService.revokeAllUserRefreshTokens`: set `isRevoked := true` on every
record owned by the user; returns `true` unconditionally like
`revokeRefreshToken`. -/
def AuthService.revokeAllUserRefreshTokens (db : Db) (userId : String) :
    Bool × Db :=
  (true, db.revokeByUser userId)

/-! ## Refresh route (app/server/api-routes, authApi section) -/

/-- Status code and JSON body fields of a refresh-route response (body
`{ success, message? }`; the success body additionally carries the user and
expiry, which the error-indistinguishability claim does not concern). -/
structure ApiResponse where
  status : Nat
  success : Bool
  message : Option String
deriving DecidableEq, Repr

/-- The POST /api/auth/refresh handler: a missing/unverifiable signed cookie
is a 401 "Refresh token not available"; otherwise `AuthService.refreshToken`
runs and any thrown error becomes a 401 with the thrown message as the body
message; success is a 200. -/
def refreshRoute (db : Db) (cookie : Option Token) (jtiA jtiR : String)
    (now : Nat) : ApiResponse × Db :=
  match cookie with
  | none =>
    ({ status := 401, success := false
       message := some "Refresh token not available" }, db)
  | some t =>
    match AuthService.refreshToken db t jtiA jtiR now with
    | (.ok _, db2) => ({ status := 200, success := true, message := none }, db2)
    | (.error e, db2) =>
      ({ status := 401, success := false, message := some e }, db2)

/-! ## Rotation traces over the session service

The claims about replaying a rotated token quantify over "every later call",
so we model the server-side operation alphabet as a step relation on `Db`.
The database's uniqueness constraint on the refresh-token value is captured
by the freshness side condition on the `nanoid` jti of each newly minted
refresh token (`Db.jtiFresh`): a freshly generated token value collides with
no stored one. -/

/-- The jti claim of a token, when it is well formed. -/
def tokenJti : Token → Option String
  | .signed p _ _ _ _ => some p.jti
  | .malformed _ => none

/-- The fresh jti `j` collides with no refresh-token record already stored:
the model of the unique `token` column together with collision-negligible
`nanoid` generation. -/
def Db.jtiFresh (db : Db) (j : String) : Prop :=
  ∀ r ∈ db.refreshTokens, tokenJti r.token ≠ some j

/-- Freshness of a jti for a concrete database is checkable. -/
instance (db : Db) (j : String) : Decidable (db.jtiFresh j) := by
  unfold Db.jtiFresh
  infer_instance

/-- One server-side call of the session service, with its nondeterministic
inputs (current time, fresh jtis, password oracle) made explicit. -/
inductive AuthOp where
  | login (email password : String) (meta : Metadata)
      (verifyPassword : String → String → Bool) (jtiA jtiR : String) (now : Nat)
  | createTokens (user : User) (meta : Metadata) (jtiA jtiR : String) (now : Nat)
  | refresh (t : Token) (jtiA jtiR : String) (now : Nat)
  | revoke (t : Token)
  | revokeAll (uid : String)

/-- The database state an operation leaves behind (a failed call leaves the
state unchanged). -/
def applyOp (db : Db) : AuthOp → Db
  | .login e p m v jA jR now =>
      match AuthService.login db e p m v jA jR now with
      | .ok x => x.2
      | .error _ => db
  | .createTokens u m jA jR now => (AuthService.createTokensForUser db u m jA jR now).2
  | .refresh t jA jR now => (AuthService.refreshToken db t jA jR now).2
  | .revoke t => (AuthService.revokeRefreshToken db t).2
  | .revokeAll uid => (AuthService.revokeAllUserRefreshTokens db uid).2

/-- The jti of the refresh token an operation would mint, when it mints one. -/
def opRefreshJti : AuthOp → Option String
  | .login _ _ _ _ _ jR _ => some jR
  | .createTokens _ _ _ jR _ => some jR
  | .refresh _ _ jR _ => some jR
  | .revoke _ => none
  | .revokeAll _ => none

/-- Side condition on an operation: the refresh-token jti it mints (if any)
is fresh for the current database. -/
def OpFresh (db : Db) (op : AuthOp) : Prop :=
  ∀ j, opRefreshJti op = some j → db.jtiFresh j

/-- One step of the session-service state machine. -/
def AuthStep (db db2 : Db) : Prop :=
  ∃ op, OpFresh db op ∧ applyOp db op = db2

/-- Any number of later session-service calls. -/
def AuthReachable : Db → Db → Prop :=
  Relation.ReflTransGen AuthStep

/-- The unique constraint on the `token` column of the `refreshTokens`
table: no two stored records share a token value. -/
def TokenUnique (db : Db) : Prop :=
  db.refreshTokens.Pairwise fun a b => a.token ≠ b.token

/-- The unique-token constraint is checkable for a concrete database. -/
instance (db : Db) : Decidable (TokenUnique db) := by
  unfold TokenUnique
  infer_instance

/-- Every stored record carrying this token value is revoked. -/
def Db.allRevokedFor (db : Db) (t : Token) : Prop :=
  ∀ r ∈ db.refreshTokens, r.token = t → r.isRevoked = true

/-- Some stored record carries this token value. -/
def Db.tokenStored (db : Db) (t : Token) : Prop :=
  ∃ r ∈ db.refreshTokens, r.token = t

/-- Boolean success test for an `Except` result. -/
def exceptIsOk {ε α : Type} : Except ε α → Bool
  | .ok _ => true
  | .error _ => false

/-! ## Client refresh scheduling (app/providers/authProviders.tsx) -/

/-- Threshold for proactive refresh: 3 minutes, in milliseconds. -/
def refreshThresholdMs : Int := 3 * 60 * 1000

/-- Rate limit window: 1 minute, in milliseconds. -/
def rateLimitThresholdMs : Int := 60 * 1000

/-- The client-side auth state visible to the refresh machinery of
`AuthProvider`: the Redux selectors (`isAuthenticated`, `expiresAt`), the
`auth_status` marker cookie probe (`hasAuthCookie()`), the logout/redirect
flags, the `refreshInProgressRef` single-flight marker and the component's
refresh bookkeeping.  Timestamps are JS epoch milliseconds as `Int` (JS date
arithmetic is signed). -/
structure ClientView where
  isAuthenticated : Bool
  expiresAt : Option Int
  hasAuthCookie : Bool
  isLoggingOut : Bool
  isRedirecting : Bool
  logoutInProgress : Bool
  redirectInProgress : Bool
  refreshInProgress : Bool
  lastRefreshAttempt : Option Int
  lastSuccessfulRefresh : Option Int
deriving DecidableEq, Repr

/-- The `shouldRefreshToken` callback: false when unauthenticated, without a
cached expiry, without the marker cookie, or while any logout/redirect/
refresh-in-flight flag holds; otherwise requires the cached expiry to lie
strictly in the future and within 3 minutes, and more than 1 minute to have
passed since the last successful refresh (if any). -/
def shouldRefreshToken (s : ClientView) (now : Int) : Bool :=
  if !s.isAuthenticated || s.expiresAt.isNone then false
  else if !s.hasAuthCookie then false
  else if s.isLoggingOut || s.isRedirecting || s.logoutInProgress ||
      s.redirectInProgress || s.refreshInProgress then false
  else
    let expirationTime := s.expiresAt.getD 0
    let timeUntilExpiry := expirationTime - now
    let canRefreshAgain :=
      match s.lastSuccessfulRefresh with
      | none => true
      | some ls => decide (now - ls > rateLimitThresholdMs)
    decide (timeUntilExpiry > 0) && decide (timeUntilExpiry < refreshThresholdMs)
      && canRefreshAgain

/-- The early-return guard at the top of the consolidated refresh effect's
30-second interval callback. -/
def refreshTickGuard (s : ClientView) : Bool :=
  s.isAuthenticated && s.expiresAt.isSome && !s.isLoggingOut &&
    !s.isRedirecting && !s.logoutInProgress && !s.redirectInProgress &&
    !s.refreshInProgress

/-- One firing of the 30-second interval: when the guard and
`shouldRefreshToken` both hold, a refresh attempt starts
(`refreshInProgressRef.current = true`, `setLastRefreshAttempt(new Date())`);
the Bool reports whether an attempt started. -/
def clientTick (s : ClientView) (now : Int) : ClientView × Bool :=
  if refreshTickGuard s && shouldRefreshToken s now then
    ({ s with refreshInProgress := true, lastRefreshAttempt := some now }, true)
  else (s, false)

/-- Effect of the `clearCredentials` Redux action on the client view: user
cleared (so `isAuthenticated` selector turns false), expiry cleared,
`logoutInProgress` raised, slice refresh flag lowered. -/
def clearCredentialsView (s : ClientView) : ClientView :=
  { s with isAuthenticated := false, expiresAt := none
           logoutInProgress := true, refreshInProgress := false }

/-- Completion of an in-flight refresh request.  The refresh route answers
either 200 with `success: true` (`success = true` here) or a 401 that makes
`unwrap()` throw (`success = false`).  On success the handler runs
`resetLoginState()` (all logout/redirect flags lowered), re-checks that the
user is still authenticated and no logout began, then records the successful
refresh time and the new expiry via `setCredentials`; on a thrown 401 it
dispatches `clearCredentials`; either way the `finally` block lowers
`refreshInProgressRef`.  A completion with no refresh in flight is a no-op. -/
def clientComplete (s : ClientView) (success : Bool) (newExpiresAt : Int)
    (now : Int) : ClientView :=
  if !s.refreshInProgress then s
  else if success then
    let s1 := { s with isLoggingOut := false, isRedirecting := false
                       logoutInProgress := false, redirectInProgress := false
                       refreshInProgress := false }
    if s1.isAuthenticated then
      { s1 with lastSuccessfulRefresh := some now, expiresAt := some newExpiresAt }
    else s1
  else
    { clearCredentialsView s with refreshInProgress := false }

/-- An event of the client refresh loop: an interval firing, or the
completion (fulfilment or rejection) of the in-flight refresh request. -/
inductive ClientEvent where
  | tick (now : Int)
  | complete (success : Bool) (newExpiresAt : Int) (now : Int)
deriving DecidableEq, Repr

/-- Wall-clock time of an event. -/
def ClientEvent.time : ClientEvent → Int
  | .tick n => n
  | .complete _ _ n => n

/-- Run the client refresh loop over a list of events, collecting the start
times of the refresh attempts it makes (in order). -/
def runClient (s : ClientView) : List ClientEvent → ClientView × List Int
  | [] => (s, [])
  | .tick n :: es =>
    let step := clientTick s n
    let rest := runClient step.1 es
    (rest.1, if step.2 then n :: rest.2 else rest.2)
  | .complete ok exp n :: es => runClient (clientComplete s ok exp n) es

/-- Sanity invariant tying a client view to a time bound `T` (no event before
`T` is pending): an in-flight attempt started at or before `T`, and in a
quiescent authenticated view every recorded attempt is covered by a recorded
successful refresh at or before `T`.  It holds for any view whose
`lastRefreshAttempt` is `none`. -/
def goodStateB (s : ClientView) (T : Int) : Bool :=
  if s.refreshInProgress then
    match s.lastRefreshAttempt with
    | none => true
    | some t1 => decide (t1 ≤ T)
  else if s.isAuthenticated && !s.logoutInProgress then
    match s.lastRefreshAttempt with
    | none => true
    | some t1 =>
      match s.lastSuccessfulRefresh with
      | none => false
      | some ls => decide (t1 ≤ ls) && decide (ls ≤ T)
  else true

/-! ## Store restore (src/unnamed/part_010, loadState) -/

/-- The persisted `auth` slice as restored from sessionStorage.  The user is
identified by id only; the restore logic inspects nothing but its
presence. -/
structure PersistedAuth where
  user : Option String
  expiresAt : Option Int
  isLoading : Bool
  source : Option String
  logoutInProgress : Bool
  refreshInProgress : Bool
  lastRefreshAttempt : Option Int
  lastSuccessfulRefresh : Option Int
deriving DecidableEq, Repr

/-- The slice of the persisted Redux state the restore logic inspects. -/
structure PersistedState where
  auth : PersistedAuth
deriving DecidableEq, Repr

/-- The cleared auth slice `loadState` substitutes when the cache is not
trusted. -/
def clearedPersistedAuth : PersistedAuth :=
  { user := none, expiresAt := none, isLoading := false, source := none
    logoutInProgress := false, refreshInProgress := false
    lastRefreshAttempt := none, lastSuccessfulRefresh := none }

/-- `loadState()`: prefer `window.__PRELOADED_STATE__`; otherwise parse
sessionStorage.  VALIDATION 1: a cached user without the `auth_status`
marker cookie clears the auth slice.  VALIDATION 2: with the cookie present,
a cached expiry more than 20 minutes in the future, already passed, or more
than an hour in the past is suspicious and is replaced by the cookie-derived
estimate when one is available. -/
def loadState (preloaded serialized : Option PersistedState)
    (hasCookie : Bool) (cookieExpiry : Option Int) (now : Int) :
    Option PersistedState :=
  match preloaded with
  | some p => some p
  | none =>
    match serialized with
    | none => none
    | some parsed =>
      if parsed.auth.user.isSome && !hasCookie then
        some { parsed with auth := clearedPersistedAuth }
      else if parsed.auth.user.isSome && hasCookie &&
          parsed.auth.expiresAt.isSome then
        let expiryTime := parsed.auth.expiresAt.getD 0
        let isSuspiciousExpiry :=
          decide (expiryTime > now + 20 * 60 * 1000) ||
            (decide (expiryTime < now) && hasCookie) ||
            decide (expiryTime < now - 60 * 60 * 1000)
        if isSuspiciousExpiry then
          match cookieExpiry with
          | some ce =>
            some { parsed with auth := { parsed.auth with expiresAt := some ce } }
          | none => some parsed
        else some parsed
      else some parsed

/-! ## Redux auth slice (app/store/authSlice.ts) -/

/-- The `source` discriminator of the auth slice. -/
inductive AuthSource where
  | server
  | client
deriving DecidableEq, Repr

/-- The `AuthState` of the Redux auth slice (user kept as its id; the
reducers inspect only its presence). -/
structure AuthState where
  user : Option String
  expiresAt : Option String
  isLoading : Bool
  source : Option AuthSource
  logoutInProgress : Bool
  refreshInProgress : Bool
  lastRefreshAttempt : Option String
  lastSuccessfulRefresh : Option String
deriving DecidableEq, Repr

/-- The `clearCredentials` reducer: raise `logoutInProgress`, reset user,
expiry, loading, source and the slice refresh flag (the refresh-tracking
timestamps are left as they are). -/
def clearCredentials (s : AuthState) : AuthState :=
  { s with logoutInProgress := true, user := none, expiresAt := none
           isLoading := false, source := none, refreshInProgress := false }

/-- Payload of the `syncServerAuth` action. -/
structure SyncPayload where
  user : Option String
  expiresAt : Option String
deriving DecidableEq, Repr

/-- The `syncServerAuth` reducer: only when the payload carries a user and no
logout is in progress does it adopt the server data (and lower the logout
flag); otherwise the state is returned unchanged. -/
def syncServerAuth (s : AuthState) (p : SyncPayload) : AuthState :=
  if p.user.isSome && !s.logoutInProgress then
    { s with user := p.user, expiresAt := p.expiresAt
             source := some AuthSource.server, logoutInProgress := false }
  else s

/-! ## General lemmas -/

/-- Characterization of successful JWT verification: exactly the well-formed
tokens signed with the expected secret/audience/issuer and not yet expired. -/
theorem jwtVerify_eq_some_iff (t : Token) (secret aud iss : String) (now : Nat)
    (p : JwtPayload) :
    jwtVerify t secret aud iss now = some p ↔
      ∃ exp, t = Token.signed p secret aud iss exp ∧ now < exp := by
  cases t with
  | malformed r => simp [jwtVerify]
  | signed q s a i e =>
    constructor
    · intro h
      simp only [jwtVerify] at h
      split at h
      · next hc =>
        obtain ⟨hs, ha, hi, he⟩ := hc
        injection h with h
        subst h
        exact ⟨e, by rw [hs, ha, hi], he⟩
      · exact absurd h (by simp)
    · rintro ⟨exp, heq, hlt⟩
      injection heq with h1 h2 h3 h4 h5
      subst h1; subst h2; subst h3; subst h4; subst h5
      simp [jwtVerify, hlt]

/-- The map underlying the revoke operations only sets the revoked flag. -/
theorem revoke_map_idem (t : Token) (r : RefreshTokenRecord) :
    (fun r => if r.token = t then { r with isRevoked := true } else r)
      ((fun r => if r.token = t then { r with isRevoked := true } else r) r) =
    (fun r => if r.token = t then { r with isRevoked := true } else r) r := by
  by_cases h : r.token = t <;> simp [h]

/-! ## Claim theorems -/

/-- C3.  All three refresh failure causes — invalid signature, expired token
(either as a JWT failure or as an expired stored record), and no matching
active database record — surface through the refresh route as one and the
same externally visible error: HTTP 401 with
`{ success: false, message: "Invalid refresh token" }`; the caller cannot
tell which check failed. -/
theorem refresh_error_indistinguishable (db : Db) (t : Token)
    (jA jR : String) (now : Nat)
    (h : JwtService.verifyRefreshToken t now = none ∨
         db.findActiveRefreshToken t now = none) :
    refreshRoute db (some t) jA jR now =
      ({ status := 401, success := false
         message := some "Invalid refresh token" }, db) := by
  rcases h with h | h
  · simp [refreshRoute, AuthService.refreshToken, h]
  · cases hv : JwtService.verifyRefreshToken t now with
    | none => simp [refreshRoute, AuthService.refreshToken, hv]
    | some p => simp [refreshRoute, AuthService.refreshToken, hv, h]

/-- Witness for C3 at a concrete input: a malformed token is answered with
the single collapsed error response. -/
theorem refresh_error_indistinguishable_witness :
    refreshRoute { users := [], refreshTokens := [], nextTokenId := 0 }
        (some (Token.malformed "x")) "a" "r" 0 =
      ({ status := 401, success := false
         message := some "Invalid refresh token" },
       { users := [], refreshTokens := [], nextTokenId := 0 }) :=
  refresh_error_indistinguishable _ _ "a" "r" 0 (Or.inl rfl)

/-- C4.  Anti-enumeration: a login with an email matching no user and a login
with an existing user's email but a wrong password produce the very same
error value, `Invalid credentials`; neither reveals which check failed. -/
theorem login_anti_enumeration (db : Db) (e1 p1 e2 p2 : String) (u : User)
    (m1 m2 : Metadata) (vp : String → String → Bool)
    (jA1 jR1 jA2 jR2 : String) (n1 n2 : Nat)
    (h1 : db.findUserByEmail e1 = none)
    (h2 : db.findUserByEmail e2 = some u)
    (h3 : vp p2 u.passwordHash = false) :
    AuthService.login db e1 p1 m1 vp jA1 jR1 n1 =
        .error "Invalid credentials" ∧
    AuthService.login db e2 p2 m2 vp jA2 jR2 n2 =
        .error "Invalid credentials" ∧
    AuthService.login db e1 p1 m1 vp jA1 jR1 n1 =
        AuthService.login db e2 p2 m2 vp jA2 jR2 n2 := by
  have ha : AuthService.login db e1 p1 m1 vp jA1 jR1 n1 =
      .error "Invalid credentials" := by
    simp [AuthService.login, h1]
  have hb : AuthService.login db e2 p2 m2 vp jA2 jR2 n2 =
      .error "Invalid credentials" := by
    simp [AuthService.login, h2, h3]
  exact ⟨ha, hb, by rw [ha, hb]⟩

/-- A user row for concrete witnesses. -/
def userW : User :=
  { id := "u1", email := "real@x.com", passwordHash := "h1", role := "user"
    isVerified := true }

/-- A one-user database for concrete witnesses. -/
def dbW : Db := { users := [userW], refreshTokens := [], nextTokenId := 0 }

/-- Witness for C4 at a concrete input: unknown email versus wrong password
for an existing user give byte-identical error results. -/
theorem login_anti_enumeration_witness :
    AuthService.login dbW "unknown@x.com" "pw1" ⟨none, none, none⟩
        (fun _ _ => false) "a1" "r1" 0 =
      AuthService.login dbW "real@x.com" "wrongpassword" ⟨none, none, none⟩
        (fun _ _ => false) "a2" "r2" 0 :=
  (login_anti_enumeration dbW "unknown@x.com" "pw1" "real@x.com"
    "wrongpassword" userW ⟨none, none, none⟩ ⟨none, none, none⟩
    (fun _ _ => false) "a1" "r1" "a2" "r2" 0 0 (by decide) (by decide)
    rfl).2.2

/-- C6.  When no preloaded state is present and the persisted session cache
holds a user while the `auth_status` marker cookie is absent — in particular
with a cached expiry more than 20 minutes in the future — `loadState`
replaces the restored auth slice with the cleared state: user, expiry and
source all reset. -/
theorem load_state_clears_without_cookie (parsed : PersistedState)
    (uid : String) (e now : Int) (cookieExpiry : Option Int)
    (hu : parsed.auth.user = some uid)
    (_he : parsed.auth.expiresAt = some e)
    (_hfar : now + 20 * 60 * 1000 < e) :
    loadState none (some parsed) false cookieExpiry now =
      some { parsed with auth := clearedPersistedAuth } ∧
    clearedPersistedAuth.user = none ∧
    clearedPersistedAuth.expiresAt = none ∧
    clearedPersistedAuth.source = none := by
  refine ⟨?_, rfl, rfl, rfl⟩
  simp [loadState, hu]

/-- A persisted state for the C6 witness: cached user with an expiry
21 minutes in the future. -/
def persistedW : PersistedState :=
  { auth :=
    { user := some "u1", expiresAt := some (21 * 60 * 1000), isLoading := false
      source := some "client", logoutInProgress := false
      refreshInProgress := false, lastRefreshAttempt := none
      lastSuccessfulRefresh := none } }

/-- Witness for C6 at a concrete input. -/
theorem load_state_clears_without_cookie_witness :
    loadState none (some persistedW) false none 0 =
      some { persistedW with auth := clearedPersistedAuth } :=
  (load_state_clears_without_cookie persistedW "u1" (21 * 60 * 1000) 0 none
    rfl rfl (by decide)).1

/-- C7.  `revokeRefreshToken` is idempotent: a second call with the same
token leaves the same end state and again completes with `true`; after a
call every matching record is revoked; and a call whose matching records are
already all revoked (or that matches no record) is a no-op on the store, not
an error. -/
theorem revoke_refresh_token_idempotent (db : Db) (t : Token) :
    AuthService.revokeRefreshToken (AuthService.revokeRefreshToken db t).2 t =
      AuthService.revokeRefreshToken db t ∧
    (AuthService.revokeRefreshToken db t).1 = true ∧
    (∀ r ∈ (AuthService.revokeRefreshToken db t).2.refreshTokens,
      r.token = t → r.isRevoked = true) ∧
    ((∀ r ∈ db.refreshTokens, r.token = t → r.isRevoked = true) →
      (AuthService.revokeRefreshToken db t).2 = db) := by
  refine ⟨?_, rfl, ?_, ?_⟩
  · simp only [AuthService.revokeRefreshToken, Db.revokeByToken, List.map_map,
      Prod.mk.injEq, true_and]
    congr 1
    exact List.map_congr_left fun r _ => revoke_map_idem t r
  · intro r hr hrt
    simp only [AuthService.revokeRefreshToken, Db.revokeByToken,
      List.mem_map] at hr
    obtain ⟨y, _, hy⟩ := hr
    by_cases hyt : y.token = t
    · rw [← hy]; simp [hyt]
    · rw [← hy] at hrt
      simp [hyt] at hrt
  · intro h
    simp only [AuthService.revokeRefreshToken, Db.revokeByToken]
    have hmap : db.refreshTokens.map
        (fun r => if r.token = t then { r with isRevoked := true } else r) =
        db.refreshTokens := by
      conv_rhs => rw [← List.map_id db.refreshTokens]
      refine List.map_congr_left fun r hr => ?_
      by_cases hrt : r.token = t
      · have hrev := h r hr hrt
        cases r
        simp_all
      · simp [hrt]
    rw [hmap]

/-- A stored refresh-token record, already revoked, for the C7 witness. -/
def recordW : RefreshTokenRecord :=
  { id := 1, userId := "u1"
    token := Token.signed
      { sub := "u1", email := "real@x.com", role := "user", jti := "j1"
        fingerprint := none } refreshTokenSecret jwtAudience jwtIssuer 1000
    expiresAt := 1000, isRevoked := true, userAgent := none, ipAddress := none
    family := none }

/-- A database whose only record matching the witness token is already
revoked. -/
def dbRevokedW : Db :=
  { users := [userW], refreshTokens := [recordW], nextTokenId := 2 }

/-- Witness for C7 at a concrete input: revoking an already-revoked token is
a no-op on the store. -/
theorem revoke_refresh_token_idempotent_witness :
    (AuthService.revokeRefreshToken dbRevokedW recordW.token).2 = dbRevokedW :=
  (revoke_refresh_token_idempotent dbRevokedW recordW.token).2.2.2 (by decide)

/-- C8.  `verifyAccessToken` and `verifyRefreshToken` are total functions
into payload-or-invalid: each succeeds exactly on a well-formed token signed
with its configured secret for the configured audience and issuer whose
expiry has not passed, and on every other input returns the invalid result
(`none`) instead of raising. -/
theorem verify_token_checks (t : Token) (now : Nat) :
    (∀ p : JwtPayload, JwtService.verifyAccessToken t now = some p ↔
      ∃ exp, t = Token.signed p accessTokenSecret jwtAudience jwtIssuer exp ∧
        now < exp) ∧
    (∀ p : JwtPayload, JwtService.verifyRefreshToken t now = some p ↔
      ∃ exp, t = Token.signed p refreshTokenSecret jwtAudience jwtIssuer exp ∧
        now < exp) ∧
    (JwtService.verifyAccessToken t now = none ∨
      ∃ p, JwtService.verifyAccessToken t now = some p) ∧
    (JwtService.verifyRefreshToken t now = none ∨
      ∃ p, JwtService.verifyRefreshToken t now = some p) := by
  refine ⟨fun p => jwtVerify_eq_some_iff t accessTokenSecret jwtAudience
    jwtIssuer now p, fun p => jwtVerify_eq_some_iff t refreshTokenSecret
    jwtAudience jwtIssuer now p, ?_, ?_⟩
  · cases h : JwtService.verifyAccessToken t now with
    | none => exact Or.inl rfl
    | some p => exact Or.inr ⟨p, rfl⟩
  · cases h : JwtService.verifyRefreshToken t now with
    | none => exact Or.inl rfl
    | some p => exact Or.inr ⟨p, rfl⟩

/-- A payload for the C8 witness. -/
def payloadW : JwtPayload :=
  { sub := "u1", email := "real@x.com", role := "user", jti := "j9"
    fingerprint := none }

/-- Witness for C8 at a concrete input: a well-signed unexpired access token
verifies to its payload. -/
theorem verify_token_checks_witness :
    JwtService.verifyAccessToken
      (Token.signed payloadW accessTokenSecret jwtAudience jwtIssuer 10) 5 =
      some payloadW :=
  ((verify_token_checks _ 5).1 payloadW).mpr ⟨10, rfl, by decide⟩

/-- C10.  Dispatching `clearCredentials` from any state yields `user = null`,
`expiresAt = null`, `source = null`, `isLoading = false`,
`refreshInProgress = false` and `logoutInProgress = true`; and while
`logoutInProgress` holds, `syncServerAuth` leaves the state unchanged — in
particular immediately after a `clearCredentials` — so a failure path that
clears credentials also suppresses server-auth syncing until the flag is
reset. -/
theorem clear_credentials_suppresses_sync (s s2 : AuthState)
    (p q : SyncPayload) :
    (clearCredentials s).user = none ∧
    (clearCredentials s).expiresAt = none ∧
    (clearCredentials s).source = none ∧
    (clearCredentials s).isLoading = false ∧
    (clearCredentials s).refreshInProgress = false ∧
    (clearCredentials s).logoutInProgress = true ∧
    (s2.logoutInProgress = true → syncServerAuth s2 q = s2) ∧
    syncServerAuth (clearCredentials s) p = clearCredentials s := by
  refine ⟨rfl, rfl, rfl, rfl, rfl, rfl, ?_, ?_⟩
  · intro h
    simp [syncServerAuth, h]
  · simp [syncServerAuth, clearCredentials]

/-- A slice state with the logout flag raised, for the C10 witness. -/
def authStateW : AuthState :=
  { user := none, expiresAt := none, isLoading := false, source := none
    logoutInProgress := true, refreshInProgress := false
    lastRefreshAttempt := none, lastSuccessfulRefresh := none }

/-- Witness for C10 at a concrete input: with the logout flag raised,
`syncServerAuth` is suppressed. -/
theorem clear_credentials_suppresses_sync_witness :
    syncServerAuth authStateW { user := some "u2", expiresAt := some "x" } =
      authStateW :=
  (clear_credentials_suppresses_sync authStateW authStateW
    { user := some "u2", expiresAt := some "x" }
    { user := some "u2", expiresAt := some "x" }).2.2.2.2.2.2.1 rfl

/-! ## Rotation-invariant machinery -/

/-- In a database satisfying the unique-token-value constraint, two stored
records sharing a token value are the same record. -/
theorem tokenUnique_eq {db : Db} (huniq : TokenUnique db)
    {a b : RefreshTokenRecord} (ha : a ∈ db.refreshTokens)
    (hb : b ∈ db.refreshTokens) (h : a.token = b.token) : a = b := by
  by_cases hab : a = b
  · exact hab
  · exfalso
    have hsym : Symmetric fun a b : RefreshTokenRecord => a.token ≠ b.token := by
      intro x y hxy he
      exact hxy he.symm
    exact List.Pairwise.forall hsym huniq ha hb hab h

/-- A revocation-style map (one that can only set the revoked flag while
keeping the token value) preserves `allRevokedFor`-style facts. -/
theorem allRevokedFor_map (l : List RefreshTokenRecord)
    (f : RefreshTokenRecord → RefreshTokenRecord)
    (htok : ∀ r, (f r).token = r.token)
    (hmono : ∀ r, r.isRevoked = true → (f r).isRevoked = true)
    (t : Token) (h : ∀ r ∈ l, r.token = t → r.isRevoked = true) :
    ∀ r ∈ l.map f, r.token = t → r.isRevoked = true := by
  intro r hr hrt
  obtain ⟨y, hy, rfl⟩ := List.mem_map.mp hr
  exact hmono y (h y hy (by rw [← htok y]; exact hrt))

/-- A token-preserving map keeps every stored token value stored. -/
theorem tokenStored_map (l : List RefreshTokenRecord)
    (f : RefreshTokenRecord → RefreshTokenRecord)
    (htok : ∀ r, (f r).token = r.token)
    (t : Token) (h : ∃ r ∈ l, r.token = t) :
    ∃ r ∈ l.map f, r.token = t := by
  obtain ⟨r, hr, hrt⟩ := h
  exact ⟨f r, List.mem_map_of_mem f hr, by rw [htok r]; exact hrt⟩

/-- The map of `Db.revokeById` keeps token values. -/
theorem revokeById_map_token (id : Nat) (r : RefreshTokenRecord) :
    ((if r.id = id then { r with isRevoked := true } else r) :
      RefreshTokenRecord).token = r.token := by
  split <;> rfl

/-- The map of `Db.revokeById` never lowers the revoked flag. -/
theorem revokeById_map_mono (id : Nat) (r : RefreshTokenRecord)
    (h : r.isRevoked = true) :
    ((if r.id = id then { r with isRevoked := true } else r) :
      RefreshTokenRecord).isRevoked = true := by
  split <;> simp [h]

/-- The map of `Db.revokeByToken` keeps token values. -/
theorem revokeByToken_map_token (t : Token) (r : RefreshTokenRecord) :
    ((if r.token = t then { r with isRevoked := true } else r) :
      RefreshTokenRecord).token = r.token := by
  split <;> rfl

/-- The map of `Db.revokeByToken` never lowers the revoked flag. -/
theorem revokeByToken_map_mono (t : Token) (r : RefreshTokenRecord)
    (h : r.isRevoked = true) :
    ((if r.token = t then { r with isRevoked := true } else r) :
      RefreshTokenRecord).isRevoked = true := by
  split <;> simp [h]

/-- The map of `Db.revokeByUser` keeps token values. -/
theorem revokeByUser_map_token (uid : String) (r : RefreshTokenRecord) :
    ((if r.userId = uid then { r with isRevoked := true } else r) :
      RefreshTokenRecord).token = r.token := by
  split <;> rfl

/-- The map of `Db.revokeByUser` never lowers the revoked flag. -/
theorem revokeByUser_map_mono (uid : String) (r : RefreshTokenRecord)
    (h : r.isRevoked = true) :
    ((if r.userId = uid then { r with isRevoked := true } else r) :
      RefreshTokenRecord).isRevoked = true := by
  split <;> simp [h]

/-- Inserting a record whose token value differs from `t` preserves
`allRevokedFor t`. -/
theorem allRevokedFor_insert (db : Db) (uid : String) (tok : Token)
    (exp : Nat) (ua ip fam : Option String) (t : Token)
    (h : db.allRevokedFor t) (hne : tok ≠ t) :
    (db.insertRefreshToken uid tok exp ua ip fam).allRevokedFor t := by
  intro r hr hrt
  simp only [Db.insertRefreshToken, List.mem_append, List.mem_singleton] at hr
  rcases hr with hr | hr
  · exact h r hr hrt
  · subst hr
    exact absurd hrt hne

/-- Insertion preserves `tokenStored`. -/
theorem tokenStored_insert (db : Db) (uid : String) (tok : Token)
    (exp : Nat) (ua ip fam : Option String) (t : Token)
    (h : db.tokenStored t) :
    (db.insertRefreshToken uid tok exp ua ip fam).tokenStored t := by
  obtain ⟨r, hr, hrt⟩ := h
  exact ⟨r, by simp [Db.insertRefreshToken, hr], hrt⟩

/-- A freshly minted refresh token differs from every token value already
stored in the database, thanks to the fresh jti. -/
theorem generated_ne_stored (db : Db) (user : User) (jR : String) (now : Nat)
    (t : Token) (hfresh : db.jtiFresh jR) (hst : db.tokenStored t) :
    (JwtService.generateRefreshToken user jR now).1 ≠ t := by
  obtain ⟨r, hr, hrt⟩ := hst
  intro heq
  have hj : tokenJti t = some jR := by
    rw [← heq]
    rfl
  exact hfresh r hr (by rw [hrt, hj])

/-- Success shape of `AuthService.refreshToken`: when the call succeeds, the
signature verified, an active record was found, the user exists, and the
resulting state is exactly "revoke the found record, insert the freshly
minted one". -/
theorem refresh_ok_shape (db : Db) (t : Token) (jA jR : String) (now : Nat)
    (res : LoginResult)
    (h : (AuthService.refreshToken db t jA jR now).1 = .ok res) :
    ∃ payload stored user,
      JwtService.verifyRefreshToken t now = some payload ∧
      db.findActiveRefreshToken t now = some stored ∧
      db.findUserById payload.sub = some user ∧
      (AuthService.refreshToken db t jA jR now).2 =
        (db.revokeById stored.id).insertRefreshToken user.id
          (JwtService.generateRefreshToken user jR now).1
          (JwtService.generateRefreshToken user jR now).2
          stored.userAgent stored.ipAddress stored.family := by
  cases hv : JwtService.verifyRefreshToken t now with
  | none =>
    exfalso
    simp [AuthService.refreshToken, hv] at h
  | some payload =>
    cases hs : db.findActiveRefreshToken t now with
    | none =>
      exfalso
      simp [AuthService.refreshToken, hv, hs] at h
    | some stored =>
      cases hu : db.findUserById payload.sub with
      | none =>
        exfalso
        simp [AuthService.refreshToken, hv, hs, hu] at h
      | some user =>
        refine ⟨payload, stored, user, rfl, rfl, hu, ?_⟩
        simp [AuthService.refreshToken, hv, hs, hu]

/-- The database state left by `AuthService.refreshToken` is either unchanged
(failure) or a revoke-then-insert of a token minted with jti `jR`. -/
theorem refresh_snd_cases (db : Db) (t : Token) (jA jR : String) (now : Nat) :
    (AuthService.refreshToken db t jA jR now).2 = db ∨
    ∃ (stored : RefreshTokenRecord) (user : User),
      (AuthService.refreshToken db t jA jR now).2 =
        (db.revokeById stored.id).insertRefreshToken user.id
          (JwtService.generateRefreshToken user jR now).1
          (JwtService.generateRefreshToken user jR now).2
          stored.userAgent stored.ipAddress stored.family := by
  cases h : (AuthService.refreshToken db t jA jR now).1 with
  | ok res =>
    obtain ⟨payload, stored, user, _, _, _, hdb⟩ :=
      refresh_ok_shape db t jA jR now res h
    exact Or.inr ⟨stored, user, hdb⟩
  | error e =>
    refine Or.inl ?_
    cases hv : JwtService.verifyRefreshToken t now with
    | none => simp [AuthService.refreshToken, hv]
    | some payload =>
      cases hs : db.findActiveRefreshToken t now with
      | none => simp [AuthService.refreshToken, hv, hs]
      | some stored =>
        cases hu : db.findUserById payload.sub with
        | none => simp [AuthService.refreshToken, hv, hs, hu]
        | some user =>
          exfalso
          simp [AuthService.refreshToken, hv, hs, hu] at h

/-- Success shape of `AuthService.login`: the state left behind is an insert
of a token minted with jti `jR`. -/
theorem login_ok_shape (db : Db) (e p : String) (m : Metadata)
    (v : String → String → Bool) (jA jR : String) (now : Nat)
    (x : LoginResult × Db) (h : AuthService.login db e p m v jA jR now = .ok x) :
    ∃ user, x.2 = db.insertRefreshToken user.id
      (JwtService.generateRefreshToken user jR now).1
      (JwtService.generateRefreshToken user jR now).2
      m.userAgent m.ipAddress m.family := by
  cases hu : db.findUserByEmail e with
  | none =>
    exfalso
    simp [AuthService.login, hu] at h
  | some user =>
    by_cases hv : v p user.passwordHash = false
    · exfalso
      simp [AuthService.login, hu, hv] at h
    · refine ⟨user, ?_⟩
      simp only [AuthService.login, hu, if_neg hv] at h
      injection h with h
      rw [← h]

/-- One session-service step preserves "all records with token value `t` are
revoked and at least one such record exists": no operation deletes records
or lowers a revoked flag, and freshness of the minted jti keeps any inserted
token value distinct from `t`. -/
theorem authStep_preserves (db db2 : Db) (t : Token) (hstep : AuthStep db db2)
    (hrev : db.allRevokedFor t) (hst : db.tokenStored t) :
    db2.allRevokedFor t ∧ db2.tokenStored t := by
  obtain ⟨op, hfresh, rfl⟩ := hstep
  cases op with
  | login e p m v jA jR now =>
    have hj : db.jtiFresh jR := hfresh jR rfl
    cases hl : AuthService.login db e p m v jA jR now with
    | error msg => simpa [applyOp, hl] using ⟨hrev, hst⟩
    | ok x =>
      obtain ⟨user, hx⟩ := login_ok_shape db e p m v jA jR now x hl
      have hne := generated_ne_stored db user jR now t hj hst
      constructor
      · simp only [applyOp, hl, hx]
        exact allRevokedFor_insert db user.id _ _ _ _ _ t hrev hne
      · simp only [applyOp, hl, hx]
        exact tokenStored_insert db user.id _ _ _ _ _ t hst
  | createTokens u m jA jR now =>
    have hj : db.jtiFresh jR := hfresh jR rfl
    have hne := generated_ne_stored db u jR now t hj hst
    constructor
    · simp only [applyOp, AuthService.createTokensForUser]
      exact allRevokedFor_insert db u.id _ _ _ _ _ t hrev hne
    · simp only [applyOp, AuthService.createTokensForUser]
      exact tokenStored_insert db u.id _ _ _ _ _ t hst
  | refresh t2 jA jR now =>
    have hj : db.jtiFresh jR := hfresh jR rfl
    rcases refresh_snd_cases db t2 jA jR now with hdb | ⟨stored, user, hdb⟩
    · simp only [applyOp, hdb]
      exact ⟨hrev, hst⟩
    · have hrev1 : (db.revokeById stored.id).allRevokedFor t :=
        allRevokedFor_map db.refreshTokens _ (revokeById_map_token stored.id)
          (revokeById_map_mono stored.id) t hrev
      have hst1 : (db.revokeById stored.id).tokenStored t :=
        tokenStored_map db.refreshTokens _ (revokeById_map_token stored.id) t hst
      have hne : (JwtService.generateRefreshToken user jR now).1 ≠ t :=
        generated_ne_stored db user jR now t hj hst
      constructor
      · simp only [applyOp, hdb]
        exact allRevokedFor_insert _ user.id _ _ _ _ _ t hrev1 hne
      · simp only [applyOp, hdb]
        exact tokenStored_insert _ user.id _ _ _ _ _ t hst1
  | revoke t2 =>
    constructor
    · exact allRevokedFor_map db.refreshTokens _ (revokeByToken_map_token t2)
        (revokeByToken_map_mono t2) t hrev
    · exact tokenStored_map db.refreshTokens _ (revokeByToken_map_token t2) t hst
  | revokeAll uid =>
    constructor
    · exact allRevokedFor_map db.refreshTokens _ (revokeByUser_map_token uid)
        (revokeByUser_map_mono uid) t hrev
    · exact tokenStored_map db.refreshTokens _ (revokeByUser_map_token uid) t hst

/-- Any number of later session-service calls preserves "all records with
token value `t` are revoked, and one exists". -/
theorem authReachable_preserves (db db2 : Db) (t : Token)
    (h : AuthReachable db db2) (hrev : db.allRevokedFor t)
    (hst : db.tokenStored t) : db2.allRevokedFor t ∧ db2.tokenStored t := by
  induction h with
  | refl => exact ⟨hrev, hst⟩
  | tail hsteps hstep ih => exact authStep_preserves _ _ t hstep ih.1 ih.2

/-- When every record carrying the token value is revoked, the active-record
lookup finds nothing. -/
theorem findActive_none_of_allRevoked (db : Db) (t : Token) (now : Nat)
    (h : db.allRevokedFor t) : db.findActiveRefreshToken t now = none := by
  rw [Db.findActiveRefreshToken, List.find?_eq_none]
  intro r hr
  simp only [decide_eq_true_eq, not_and]
  intro hrt hrev
  rw [h r hr hrt] at hrev
  simp at hrev

/-- When every record carrying the token value is revoked, a refresh call
with it fails with "Invalid refresh token" (whichever of the signature check
or the active-record lookup fails first). -/
theorem refresh_fails_of_allRevoked (db : Db) (t : Token) (jA jR : String)
    (now : Nat) (h : db.allRevokedFor t) :
    (AuthService.refreshToken db t jA jR now).1 =
      .error "Invalid refresh token" := by
  cases hv : JwtService.verifyRefreshToken t now with
  | none => simp [AuthService.refreshToken, hv]
  | some payload =>
    simp [AuthService.refreshToken, hv, findActive_none_of_allRevoked db t now h]

/-- Revoking the record found by the active lookup leaves every record
carrying that token value revoked (the found record is the only one, by the
unique-token constraint). -/
theorem allRevokedFor_revokeById_found (db : Db) (t : Token) (now : Nat)
    (stored : RefreshTokenRecord) (huniq : TokenUnique db)
    (hs : db.findActiveRefreshToken t now = some stored) :
    (db.revokeById stored.id).allRevokedFor t := by
  rw [Db.findActiveRefreshToken] at hs
  have hmem : stored ∈ db.refreshTokens := List.mem_of_find?_eq_some hs
  have hst := List.find?_some hs
  simp only [decide_eq_true_eq] at hst
  intro x hx hxt
  simp only [Db.revokeById, List.mem_map] at hx
  obtain ⟨y, hy, rfl⟩ := hx
  have hyt : y.token = t := by
    rw [← revokeById_map_token stored.id y]
    exact hxt
  have hys : y = stored := tokenUnique_eq huniq hy hmem (by rw [hyt, hst.1])
  subst hys
  simp

/-- The record found by the active lookup witnesses `tokenStored`. -/
theorem tokenStored_of_findActive (db : Db) (t : Token) (now : Nat)
    (stored : RefreshTokenRecord)
    (hs : db.findActiveRefreshToken t now = some stored) :
    db.tokenStored t := by
  rw [Db.findActiveRefreshToken] at hs
  have hst := List.find?_some hs
  simp only [decide_eq_true_eq] at hst
  exact ⟨stored, List.mem_of_find?_eq_some hs, hst.1⟩

/-- C1.  Rotation invariant: once a refresh call with token `t` has
succeeded (revoking the matching stored record and persisting a freshly
minted one), every later refresh call with the same `t` — after any number
of further session-service calls, and at any time, in particular before
`t`'s natural expiry — fails with the invalid-token error. -/
theorem refresh_rotation_invariant (db : Db) (t : Token) (jA jR : String)
    (now : Nat) (db2 : Db) (now2 : Nat) (jA2 jR2 : String)
    (huniq : TokenUnique db) (hfresh : db.jtiFresh jR)
    (hok : exceptIsOk (AuthService.refreshToken db t jA jR now).1 = true)
    (hreach : AuthReachable (AuthService.refreshToken db t jA jR now).2 db2) :
    (AuthService.refreshToken db2 t jA2 jR2 now2).1 =
      .error "Invalid refresh token" := by
  cases hres : (AuthService.refreshToken db t jA jR now).1 with
  | error e =>
    rw [hres] at hok
    simp [exceptIsOk] at hok
  | ok res =>
    obtain ⟨payload, stored, user, hv, hs, hu, hdb⟩ :=
      refresh_ok_shape db t jA jR now res hres
    have hstored : db.tokenStored t := tokenStored_of_findActive db t now stored hs
    have hrev1 : (db.revokeById stored.id).allRevokedFor t :=
      allRevokedFor_revokeById_found db t now stored huniq hs
    have hst1 : (db.revokeById stored.id).tokenStored t :=
      tokenStored_map db.refreshTokens _ (revokeById_map_token stored.id) t hstored
    have hne : (JwtService.generateRefreshToken user jR now).1 ≠ t :=
      generated_ne_stored db user jR now t hfresh hstored
    have hrev2 : (AuthService.refreshToken db t jA jR now).2.allRevokedFor t := by
      rw [hdb]
      exact allRevokedFor_insert _ user.id _ _ _ _ _ t hrev1 hne
    have hst2 : (AuthService.refreshToken db t jA jR now).2.tokenStored t := by
      rw [hdb]
      exact tokenStored_insert _ user.id _ _ _ _ _ t hst1
    have hfinal := authReachable_preserves _ db2 t hreach hrev2 hst2
    exact refresh_fails_of_allRevoked db2 t jA2 jR2 now2 hfinal.1

/-- A well-signed refresh token for the concrete witnesses, expiring at
time 1000. -/
def tokenW : Token :=
  Token.signed
    { sub := "u1", email := "real@x.com", role := "user", jti := "j0"
      fingerprint := none } refreshTokenSecret jwtAudience jwtIssuer 1000

/-- An active stored record for `tokenW`. -/
def activeRecordW : RefreshTokenRecord :=
  { id := 1, userId := "u1", token := tokenW, expiresAt := 1000
    isRevoked := false, userAgent := none, ipAddress := none, family := none }

/-- A database holding one user and one active refresh-token record. -/
def dbActiveW : Db :=
  { users := [userW], refreshTokens := [activeRecordW], nextTokenId := 2 }

/-- Witness for C1 at a concrete input: a successful refresh at time 0,
immediately replayed at time 0 (well before the expiry at time 1000), is
rejected. -/
theorem refresh_rotation_invariant_witness :
    (AuthService.refreshToken
      (AuthService.refreshToken dbActiveW tokenW "a1" "r1" 0).2
      tokenW "a2" "r2" 0).1 = .error "Invalid refresh token" :=
  refresh_rotation_invariant dbActiveW tokenW "a1" "r1" 0
    (AuthService.refreshToken dbActiveW tokenW "a1" "r1" 0).2 0 "a2" "r2"
    (by decide) (by decide) (by decide) Relation.ReflTransGen.refl

/-- With no injected store failure, the fallible-store variant is exactly
`AuthService.refreshToken` (faithfulness of the variant). -/
theorem refreshTokenStore_none (db : Db) (t : Token) (jA jR : String)
    (now : Nat) :
    AuthService.refreshTokenStore db t jA jR now none =
      AuthService.refreshToken db t jA jR now := by
  cases hv : JwtService.verifyRefreshToken t now with
  | none => simp [AuthService.refreshTokenStore, AuthService.refreshToken, hv]
  | some payload =>
    cases hs : db.findActiveRefreshToken t now with
    | none =>
      simp [AuthService.refreshTokenStore, AuthService.refreshToken, hv, hs]
    | some stored =>
      cases hu : db.findUserById payload.sub with
      | none =>
        simp [AuthService.refreshTokenStore, AuthService.refreshToken, hv, hs, hu]
      | some user =>
        simp [AuthService.refreshTokenStore, AuthService.refreshToken, hv, hs, hu]

/-- C9.  Rotation is not atomic: on an input where the refresh would
succeed, a store failure at the insert step (modelled by
`insertFailure = some msg`) propagates the store error to the caller while
the old record is already revoked; the state is not restored — every record
with the old token value is revoked, a refresh with it now fails, and no
replacement record was persisted (the store is left with the same number of
records), so the session is left with no valid refresh token. -/
theorem refresh_rotation_not_atomic (db : Db) (t : Token) (jA jR : String)
    (now : Nat) (msg : String)
    (huniq : TokenUnique db)
    (hok : exceptIsOk (AuthService.refreshToken db t jA jR now).1 = true) :
    (AuthService.refreshTokenStore db t jA jR now (some msg)).1 =
      .error msg ∧
    ((AuthService.refreshTokenStore db t jA jR now (some msg)).2).allRevokedFor
      t ∧
    (∀ (n2 : Nat) (jA2 jR2 : String),
      (AuthService.refreshToken
        (AuthService.refreshTokenStore db t jA jR now (some msg)).2
        t jA2 jR2 n2).1 = .error "Invalid refresh token") ∧
    ((AuthService.refreshTokenStore db t jA jR now
        (some msg)).2).refreshTokens.length = db.refreshTokens.length := by
  cases hres : (AuthService.refreshToken db t jA jR now).1 with
  | error e =>
    rw [hres] at hok
    simp [exceptIsOk] at hok
  | ok res =>
    obtain ⟨payload, stored, user, hv, hs, hu, _⟩ :=
      refresh_ok_shape db t jA jR now res hres
    have hstore : AuthService.refreshTokenStore db t jA jR now (some msg) =
        (.error msg, db.revokeById stored.id) := by
      simp [AuthService.refreshTokenStore, hv, hs, hu]
    have hrev : (db.revokeById stored.id).allRevokedFor t :=
      allRevokedFor_revokeById_found db t now stored huniq hs
    rw [hstore]
    refine ⟨rfl, hrev, ?_, ?_⟩
    · intro n2 jA2 jR2
      exact refresh_fails_of_allRevoked _ t jA2 jR2 n2 hrev
    · simp [Db.revokeById]

/-- Witness for C9 at a concrete input: after a failed insert mid-rotation,
replaying the old token is rejected — the session has lost its refresh
token. -/
theorem refresh_rotation_not_atomic_witness :
    (AuthService.refreshToken
      (AuthService.refreshTokenStore dbActiveW tokenW "a1" "r1" 0
        (some "store unavailable")).2 tokenW "a2" "r2" 0).1 =
      .error "Invalid refresh token" :=
  (refresh_rotation_not_atomic dbActiveW tokenW "a1" "r1" 0
    "store unavailable" (by decide) (by decide)).2.2.1 0 "a2" "r2"

/-- Revoking all of a user's tokens does not touch the user table, so access
token validation is unaffected by it. -/
theorem validate_unchanged_by_revokeAll (db : Db) (uid : String) (a : Token)
    (n : Nat) :
    AuthService.validateAccessToken
      (AuthService.revokeAllUserRefreshTokens db uid).2 a n =
    AuthService.validateAccessToken db a n := rfl

/-- C2.  After `revokeAllUserRefreshTokens(userId)`: access-token validation
is exactly what it was before (it never consults refresh-token revocation
state), so an access token issued for the user before the revocation still
validates to the user until its own expiry; while any subsequent refresh
call with any refresh token previously stored for that user — after any
number of further session-service calls — fails. -/
theorem validate_and_refresh_after_revoke_all (db : Db) (uid : String)
    (u : User) (fp : Option Fingerprint) (jti : String) (issuedAt now : Nat)
    (t : Token) (r : RefreshTokenRecord) (db2 : Db)
    (huniq : TokenUnique db)
    (hr : r ∈ db.refreshTokens) (hru : r.userId = uid) (hrt : r.token = t)
    (hexp : now < issuedAt + accessTokenExpiryMs)
    (huser : db.findUserById u.id = some u)
    (hreach : AuthReachable
      (AuthService.revokeAllUserRefreshTokens db uid).2 db2) :
    (∀ (a : Token) (n : Nat),
      AuthService.validateAccessToken
        (AuthService.revokeAllUserRefreshTokens db uid).2 a n =
      AuthService.validateAccessToken db a n) ∧
    AuthService.validateAccessToken
      (AuthService.revokeAllUserRefreshTokens db uid).2
      (JwtService.generateAccessToken u fp jti issuedAt).1 now = some u ∧
    (∀ (n2 : Nat) (jA jR : String),
      (AuthService.refreshToken db2 t jA jR n2).1 =
        .error "Invalid refresh token") := by
  refine ⟨fun a n => validate_unchanged_by_revokeAll db uid a n, ?_, ?_⟩
  · rw [validate_unchanged_by_revokeAll]
    simp [AuthService.validateAccessToken, JwtService.verifyAccessToken,
      JwtService.generateAccessToken, jwtVerify, hexp, huser]
  · have hrev : (AuthService.revokeAllUserRefreshTokens db uid).2.allRevokedFor
        t := by
      intro x hx hxt
      simp only [AuthService.revokeAllUserRefreshTokens, Db.revokeByUser,
        List.mem_map] at hx
      obtain ⟨y, hy, rfl⟩ := hx
      have hyt : y.token = t := by
        rw [← revokeByUser_map_token uid y]
        exact hxt
      have hys : y = r := tokenUnique_eq huniq hy hr (by rw [hyt, hrt])
      subst hys
      simp [hru]
    have hstored : (AuthService.revokeAllUserRefreshTokens db uid).2.tokenStored
        t := by
      simp only [AuthService.revokeAllUserRefreshTokens, Db.revokeByUser]
      exact tokenStored_map db.refreshTokens _ (revokeByUser_map_token uid) t
        ⟨r, hr, hrt⟩
    have hfinal := authReachable_preserves _ db2 t hreach hrev hstored
    intro n2 jA jR
    exact refresh_fails_of_allRevoked db2 t jA jR n2 hfinal.1

/-- Witness for C2 at a concrete input: after revoke-all, a pre-issued
access token (issued at time 0, checked at time 5) still validates to its
user, while the user's stored refresh token is rejected. -/
theorem validate_and_refresh_after_revoke_all_witness :
    AuthService.validateAccessToken
        (AuthService.revokeAllUserRefreshTokens dbActiveW "u1").2
        (JwtService.generateAccessToken userW none "a9" 0).1 5 = some userW ∧
    (AuthService.refreshToken
        (AuthService.revokeAllUserRefreshTokens dbActiveW "u1").2
        tokenW "a2" "r2" 5).1 = .error "Invalid refresh token" :=
  ⟨(validate_and_refresh_after_revoke_all dbActiveW "u1" userW none "a9" 0 5
      tokenW activeRecordW (AuthService.revokeAllUserRefreshTokens dbActiveW
        "u1").2 (by decide) (by decide) rfl rfl (by decide) (by decide)
      Relation.ReflTransGen.refl).2.1,
   (validate_and_refresh_after_revoke_all dbActiveW "u1" userW none "a9" 0 5
      tokenW activeRecordW (AuthService.revokeAllUserRefreshTokens dbActiveW
        "u1").2 (by decide) (by decide) rfl rfl (by decide) (by decide)
      Relation.ReflTransGen.refl).2.2 5 "a2" "r2"⟩

/-! ## Client refresh-scheduling lemmas -/

/-- Single flight: an in-flight refresh makes the scheduling predicate
false. -/
theorem shouldRefresh_false_of_inflight (s : ClientView) (now : Int)
    (h : s.refreshInProgress = true) : shouldRefreshToken s now = false := by
  unfold shouldRefreshToken
  split
  · rfl
  · split
    · rfl
    · split
      · rfl
      · next h3 =>
        exfalso
        rw [h] at h3
        simp at h3

/-- Necessity: whenever the scheduling predicate fires, the cached expiry is
strictly in the future and within the 3-minute threshold, and any recorded
last successful refresh lies more than the 1-minute rate window in the
past. -/
theorem shouldRefresh_window (s : ClientView) (now : Int)
    (h : shouldRefreshToken s now = true) :
    ∃ e, s.expiresAt = some e ∧ 0 < e - now ∧ e - now < refreshThresholdMs ∧
      ∀ ls, s.lastSuccessfulRefresh = some ls →
        rateLimitThresholdMs < now - ls := by
  cases hE : s.expiresAt with
  | none =>
    exfalso
    simp only [shouldRefreshToken, hE] at h
    simp at h
  | some e =>
    simp only [shouldRefreshToken, hE, Option.isNone_some, Option.getD_some,
      Bool.or_false] at h
    split at h
    · simp at h
    · split at h
      · simp at h
      · split at h
        · simp at h
        · simp only [Bool.and_eq_true, decide_eq_true_eq] at h
          refine ⟨e, rfl, h.1.1, h.1.2, ?_⟩
          intro ls hls
          rw [hls] at h
          simpa using h.2

/-- Exactness under the guards: for an authenticated view carrying the
marker cookie, with no logout/redirect in progress, no refresh in flight and
the rate window clear, the predicate fires exactly when the cached expiry is
strictly in the future and within 3 minutes. -/
theorem shouldRefresh_iff (s : ClientView) (now : Int)
    (hAuth : s.isAuthenticated = true) (hCookie : s.hasAuthCookie = true)
    (hLO : s.isLoggingOut = false) (hRD : s.isRedirecting = false)
    (hLP : s.logoutInProgress = false) (hRP : s.redirectInProgress = false)
    (hIP : s.refreshInProgress = false)
    (hRate : ∀ ls, s.lastSuccessfulRefresh = some ls →
      rateLimitThresholdMs < now - ls) :
    shouldRefreshToken s now = true ↔
      ∃ e, s.expiresAt = some e ∧ 0 < e - now ∧
        e - now < refreshThresholdMs := by
  cases hE : s.expiresAt with
  | none => simp [shouldRefreshToken, hE]
  | some e =>
    simp only [shouldRefreshToken, hE, Option.isNone_some, Option.getD_some,
      hAuth, hCookie, hLO, hRD, hLP, hRP, hIP, Bool.not_true, Bool.or_false,
      Bool.or_self, if_false, Bool.false_or]
    cases hLS : s.lastSuccessfulRefresh with
    | none => simp [Bool.and_eq_true, decide_eq_true_eq]
    | some ls =>
      have hls := hRate ls hLS
      simp [hls, Bool.and_eq_true, decide_eq_true_eq]

/-- The sanity invariant only constrains timestamps from above, so it is
monotone in the time bound. -/
theorem goodStateB_mono (s : ClientView) (T T2 : Int) (hT : T ≤ T2)
    (h : goodStateB s T = true) : goodStateB s T2 = true := by
  unfold goodStateB at h ⊢
  by_cases h1 : s.refreshInProgress = true
  · simp only [h1, if_true] at h ⊢
    cases hA : s.lastRefreshAttempt with
    | none => simp
    | some t1 =>
      rw [hA] at h
      simp only [decide_eq_true_eq] at h ⊢
      omega
  · have h1f : s.refreshInProgress = false := by simpa using h1
    simp only [h1f, Bool.false_eq_true, if_false] at h ⊢
    by_cases h2 : (s.isAuthenticated && !s.logoutInProgress) = true
    · simp only [h2, if_true] at h ⊢
      cases hA : s.lastRefreshAttempt with
      | none => simp
      | some t1 =>
        rw [hA] at h
        cases hS : s.lastSuccessfulRefresh with
        | none => rw [hS] at h; simp at h
        | some ls =>
          rw [hS] at h
          simp only [Bool.and_eq_true, decide_eq_true_eq] at h ⊢
          omega
    · have h2f : (s.isAuthenticated && !s.logoutInProgress) = false := by
        simpa using h2
      simp only [h2f, Bool.false_eq_true, if_false]

/-- Completing an in-flight refresh never touches the recorded attempt
time. -/
theorem clientComplete_attempt_eq (s : ClientView) (ok : Bool)
    (exp n : Int) :
    (clientComplete s ok exp n).lastRefreshAttempt = s.lastRefreshAttempt := by
  unfold clientComplete clearCredentialsView
  split
  · rfl
  · split
    · dsimp only
      split
      · rfl
      · rfl
    · rfl

/-- Completing an in-flight refresh re-establishes the sanity invariant at
the completion time: a success records the completion time as the last
successful refresh (covering the pending attempt), and a failure clears the
authenticated state. -/
theorem goodStateB_complete (s : ClientView) (ok : Bool) (exp n T : Int)
    (hT : T ≤ n) (hgood : goodStateB s T = true) :
    goodStateB (clientComplete s ok exp n) n = true := by
  by_cases hIP : s.refreshInProgress = true
  · cases ok with
    | true =>
      by_cases hA : s.isAuthenticated = true
      · have hs : clientComplete s true exp n =
            { s with isLoggingOut := false, isRedirecting := false
                     logoutInProgress := false, redirectInProgress := false
                     refreshInProgress := false
                     lastSuccessfulRefresh := some n
                     expiresAt := some exp } := by
          simp [clientComplete, hIP, hA]
        rw [hs]
        unfold goodStateB
        simp only [hA]
        cases hAt : s.lastRefreshAttempt with
        | none => simp
        | some t1 =>
          have ht1 : t1 ≤ T := by
            unfold goodStateB at hgood
            rw [hIP] at hgood
            simp only [if_true] at hgood
            rw [hAt] at hgood
            simpa using hgood
          simp only [Bool.and_eq_true, decide_eq_true_eq]
          simp
          omega
      · have hAf : s.isAuthenticated = false := by simpa using hA
        have hs : clientComplete s true exp n =
            { s with isLoggingOut := false, isRedirecting := false
                     logoutInProgress := false, redirectInProgress := false
                     refreshInProgress := false } := by
          simp [clientComplete, hIP, hAf]
        rw [hs]
        unfold goodStateB
        simp [hAf]
    | false =>
      have hs : clientComplete s false exp n =
          { s with isAuthenticated := false, expiresAt := none
                   logoutInProgress := true, refreshInProgress := false } := by
        simp [clientComplete, clearCredentialsView, hIP]
      rw [hs]
      unfold goodStateB
      simp
  · have hIPf : s.refreshInProgress = false := by simpa using hIP
    have hs : clientComplete s ok exp n = s := by
      simp [clientComplete, hIPf]
    rw [hs]
    exact goodStateB_mono s T n hT hgood

/-- Attempt-gap invariant for the client refresh loop: over any event
sequence with nondecreasing timestamps all at or after the bound `T`,
starting from a view satisfying the sanity invariant at `T`, consecutive
refresh attempts are more than the 1-minute rate window apart; moreover the
first attempt is more than the rate window after any attempt already
recorded in the starting view. -/
theorem runClient_gap (evs : List ClientEvent) : ∀ (s : ClientView) (T : Int),
    (∀ e ∈ evs, T ≤ ClientEvent.time e) →
    (evs.Pairwise fun a b => ClientEvent.time a ≤ ClientEvent.time b) →
    goodStateB s T = true →
    ((runClient s evs).2.Chain' fun a b => rateLimitThresholdMs < b - a) ∧
    (∀ n2 ∈ (runClient s evs).2.head?, ∀ t1,
      s.lastRefreshAttempt = some t1 → rateLimitThresholdMs < n2 - t1) := by
  induction evs with
  | nil =>
    intro s T hT hmono hgood
    simp [runClient]
  | cons e es ih =>
    intro s T hT hmono hgood
    have hmono2 := (List.pairwise_cons.mp hmono).2
    cases e with
    | tick n =>
      have hTes : ∀ e2 ∈ es, n ≤ ClientEvent.time e2 := fun e2 he2 =>
        (List.pairwise_cons.mp hmono).1 e2 he2
      by_cases hc : (refreshTickGuard s && shouldRefreshToken s n) = true
      · have hg := (Bool.and_eq_true _ _).mp hc
        have hstep : clientTick s n =
            ({ s with refreshInProgress := true
                      lastRefreshAttempt := some n }, true) := by
          simp [clientTick, hc]
        have hgood2 : goodStateB
            { s with refreshInProgress := true
                     lastRefreshAttempt := some n } n = true := by
          simp [goodStateB]
        have IH := ih { s with refreshInProgress := true
                               lastRefreshAttempt := some n } n hTes hmono2
          hgood2
        have hrun : runClient s (.tick n :: es) =
            ((runClient { s with refreshInProgress := true
                                 lastRefreshAttempt := some n } es).1,
             n :: (runClient { s with refreshInProgress := true
                                      lastRefreshAttempt := some n } es).2) := by
          simp [runClient, hstep]
        rw [hrun]
        constructor
        · rw [List.chain'_cons']
          exact ⟨fun b hb => IH.2 b hb n rfl, IH.1⟩
        · intro n2 hn2 t1 ht1
          simp only [List.head?_cons, Option.mem_def, Option.some.injEq] at hn2
          subst hn2
          obtain ⟨e0, hE, _, _, hRate⟩ := shouldRefresh_window s n hg.2
          have hguard := hg.1
          simp only [refreshTickGuard, Bool.and_eq_true, Bool.not_eq_true]
            at hguard
          obtain ⟨⟨⟨⟨⟨⟨hAuth, _⟩, hLO⟩, hRD⟩, hLP⟩, hRP⟩, hIP⟩ := hguard
          have hIPf : s.refreshInProgress = false := by simpa using hIP
          have hLPf : s.logoutInProgress = false := by simpa using hLP
          unfold goodStateB at hgood
          rw [hIPf, hAuth, hLPf] at hgood
          simp only [Bool.false_eq_true, if_false, Bool.not_false,
            Bool.and_self, if_true] at hgood
          rw [ht1] at hgood
          cases hLS : s.lastSuccessfulRefresh with
          | none => rw [hLS] at hgood; simp at hgood
          | some ls =>
            rw [hLS] at hgood
            simp only [Bool.and_eq_true, decide_eq_true_eq] at hgood
            have := hRate ls hLS
            omega
      · have hstep : clientTick s n = (s, false) := by
          simp only [clientTick]
          rw [if_neg]
          · exact fun h => hc h
        have hrun : runClient s (.tick n :: es) = runClient s es := by
          simp [runClient, hstep]
        rw [hrun]
        exact ih s T (fun e2 he2 => hT e2 (List.mem_cons_of_mem _ he2)) hmono2
          hgood
    | complete ok exp n =>
      have hTn : T ≤ n := hT _ (List.mem_cons_self _ _)
      have hTes : ∀ e2 ∈ es, n ≤ ClientEvent.time e2 := fun e2 he2 =>
        (List.pairwise_cons.mp hmono).1 e2 he2
      have hrun : runClient s (.complete ok exp n :: es) =
          runClient (clientComplete s ok exp n) es := by
        simp [runClient]
      rw [hrun]
      have IH := ih (clientComplete s ok exp n) n hTes hmono2
        (goodStateB_complete s ok exp n T hTn hgood)
      refine ⟨IH.1, fun n2 hn2 t1 ht1 => IH.2 n2 hn2 t1 ?_⟩
      rw [clientComplete_attempt_eq]
      exact ht1

/-- C5.  The client refresh scheduling policy: (1) single flight — an
in-flight refresh suppresses the scheduling predicate; (2) the predicate
fires only when the cached expiry is strictly in the future and within the
3-minute threshold and the last successful refresh (if any) is more than a
minute old; (3) under the guard conditions (authenticated, marker cookie
present, no logout/redirect, nothing in flight, rate window clear) it fires
exactly when the cached expiry is in the future and within 3 minutes; and
(4) over any timestamp-ordered run of the consolidated refresh effect,
consecutive refresh attempts are more than one minute of wall-clock time
apart — at most one attempt per minute. -/
theorem refresh_scheduling_policy :
    (∀ (s : ClientView) (now : Int), s.refreshInProgress = true →
      shouldRefreshToken s now = false) ∧
    (∀ (s : ClientView) (now : Int), shouldRefreshToken s now = true →
      ∃ e, s.expiresAt = some e ∧ 0 < e - now ∧
        e - now < refreshThresholdMs ∧
        ∀ ls, s.lastSuccessfulRefresh = some ls →
          rateLimitThresholdMs < now - ls) ∧
    (∀ (s : ClientView) (now : Int),
      s.isAuthenticated = true → s.hasAuthCookie = true →
      s.isLoggingOut = false → s.isRedirecting = false →
      s.logoutInProgress = false → s.redirectInProgress = false →
      s.refreshInProgress = false →
      (∀ ls, s.lastSuccessfulRefresh = some ls →
        rateLimitThresholdMs < now - ls) →
      (shouldRefreshToken s now = true ↔
        ∃ e, s.expiresAt = some e ∧ 0 < e - now ∧
          e - now < refreshThresholdMs)) ∧
    (∀ (evs : List ClientEvent) (s : ClientView) (T : Int),
      (∀ e ∈ evs, T ≤ ClientEvent.time e) →
      (evs.Pairwise fun a b => ClientEvent.time a ≤ ClientEvent.time b) →
      goodStateB s T = true →
      (runClient s evs).2.Chain' fun a b => rateLimitThresholdMs < b - a) :=
  ⟨shouldRefresh_false_of_inflight, shouldRefresh_window,
   fun s now hAuth hCookie hLO hRD hLP hRP hIP hRate =>
     shouldRefresh_iff s now hAuth hCookie hLO hRD hLP hRP hIP hRate,
   fun evs s T hT hmono hgood => (runClient_gap evs s T hT hmono hgood).1⟩

/-- A freshly authenticated client view for the C5 witness. -/
def clientViewW : ClientView :=
  { isAuthenticated := true, expiresAt := some 100000, hasAuthCookie := true
    isLoggingOut := false, isRedirecting := false, logoutInProgress := false
    redirectInProgress := false, refreshInProgress := false
    lastRefreshAttempt := none, lastSuccessfulRefresh := none }

/-- An ordered event run for the C5 witness: an attempt at time 0, its
successful completion at time 1, a tick at time 30 (suppressed by the rate
window and threshold), and a tick at time 70000 (a second attempt, more
than a minute after the first). -/
def clientEventsW : List ClientEvent :=
  [ClientEvent.tick 0, ClientEvent.complete true 200000 1,
   ClientEvent.tick 30, ClientEvent.tick 70000]

/-- Witness for C5 at a concrete input: the attempts of the concrete run
are more than one minute apart. -/
theorem refresh_scheduling_policy_witness :
    (runClient clientViewW clientEventsW).2.Chain'
      fun a b => rateLimitThresholdMs < b - a :=
  refresh_scheduling_policy.2.2.2 clientEventsW clientViewW 0 (by decide)
    (by decide) (by decide)
